import Mathlib

/-!
Verification of the Builder Hub on Base backend server (`server.js`).

The development shallowly embeds the pure decision logic of the server:
the ownership-resolution transaction scan, the signature-verification
endpoint, the registration gate over the `developers` table, the stats
aggregation pass over the `project_stats` table, and the ranking
recomputation.  External effects (HTTP, PostgreSQL, the Basescan API and
ECDSA recovery) are modelled as explicit inputs: the table is a list of
rows, the explorer responses and the recovered signer address are
parameters, and the SQL statements are translated to the corresponding
list operations.  Timestamps are epoch seconds as `Int`; counts are `Nat`;
the floating-point growth rate is modelled over `ℚ`.
-/

namespace BuilderHub

/-- JS `String.prototype.toLowerCase()` on the character list of the
string (the server only lowercases ASCII hex addresses). -/
def toLowerStr (s : String) : String :=
  ⟨s.data.map Char.toLower⟩

/-- JS `String.prototype.trim()`: strip whitespace from both ends. -/
def trimStr (s : String) : String :=
  ⟨((s.data.dropWhile Char.isWhitespace).reverse.dropWhile Char.isWhitespace).reverse⟩

/-- JS `s.startsWith(p)`. -/
def strStartsWith (s p : String) : Bool :=
  p.data.isPrefixOf s.data

/-- Syntactic address check used by the server's verification endpoints:
the regular expression `^0x[a-fA-F0-9]\x7b40\x7d$`. -/
def isAddrFormat (s : String) : Bool :=
  s.data.length == 42 && strStartsWith s "0x" &&
    (s.data.drop 2).all (fun c => c.isDigit || ('a' ≤ c && c ≤ 'f') || ('A' ≤ c && c ≤ 'F'))

/-- One entry of a Basescan `txlist` response, as the server reads it:
the `from`, `to` and `contractAddress` fields (absent or empty in JSON is
`none`), and the block timestamp in epoch seconds. -/
structure Tx where
  fromAddr : Option String
  toAddr : Option String
  contractAddr : Option String
  timeStamp : Int
deriving Repr, DecidableEq, Inhabited

/-- JS `(x || '')` applied to an optional string field. -/
def optStr (o : Option String) : String := o.getD ""

/-- Lowercased `from` field, as `(tx.from || '').toLowerCase()`. -/
def txFromL (tx : Tx) : String := toLowerStr (optStr tx.fromAddr)

/-- Lowercased `to` field, as `(tx.to || '').toLowerCase()`. -/
def txToL (tx : Tx) : String := toLowerStr (optStr tx.toAddr)

/-- Lowercased `contractAddress` field. -/
def txContractL (tx : Tx) : String := toLowerStr (optStr tx.contractAddr)

/-- Creation-transaction test from `getContractDeployer` method 1:
`(!txTo || txTo === '' || txTo === '0x') || (txContractAddress === normalizedAddress) || (txTo === normalizedAddress && txFrom !== normalizedAddress)`. -/
def isCreationTx (normalizedAddress : String) (tx : Tx) : Bool :=
  (txToL tx == "" || txToL tx == "0x")
    || txContractL tx == normalizedAddress
    || (txToL tx == normalizedAddress && txFromL tx != normalizedAddress)

/-- The loop of `getContractDeployer` method 1: return the lowercased
sender of the first transaction passing `isCreationTx` whose sender is
non-empty (`if (isCreationTx && txFrom) return txFrom.toLowerCase()`). -/
def findDeployerScan (normalizedAddress : String) : List Tx → Option String
  | [] => none
  | tx :: rest =>
    if isCreationTx normalizedAddress tx && txFromL tx != "" then some (txFromL tx)
    else findDeployerScan normalizedAddress rest

/-- Method 1 of `getContractDeployer` over an already-fetched transaction
list (the earliest ≈20 transactions of the address, ascending by block):
the creation-transaction scan, then the first-transaction fallback
(`if (firstTx.from) return firstTx.from.toLowerCase()`).  `none` means
method 1 was inconclusive and the server falls through to method 2. -/
def getContractDeployerTxScan (contractAddress : String) (txs : List Tx) : Option String :=
  let normalizedAddress := toLowerStr contractAddress
  if txs.isEmpty then none
  else
    match findDeployerScan normalizedAddress txs with
    | some d => some d
    | none =>
      match txs with
      | [] => none
      | firstTx :: _ =>
        if (optStr firstTx.fromAddr).isEmpty then none
        else some (toLowerStr (optStr firstTx.fromAddr))

/-- Full `getContractDeployer` fallback chain: the `txlist` scan
(method 1; `txlistResult = none` models an API failure or empty result),
then the `getcontractcreation` endpoint (method 2; the `contractCreator`
field, lowercased by the server), else `null` (method 3 only ever
returns `null` for the deployer). -/
def getContractDeployer (contractAddress : String) (txlistResult : Option (List Tx))
    (creationResult : Option String) : Option String :=
  match txlistResult with
  | some txs =>
    match getContractDeployerTxScan contractAddress txs with
    | some d => some d
    | none => creationResult.map toLowerStr
  | none => creationResult.map toLowerStr

/-- Response of `POST /api/verify-contract-owner` after the deployer
lookup (`deployerMatches = deployer === walletAddress.toLowerCase()`;
when no deployer is found the endpoint answers `deployerMatches:false,
deployerAddress:null, requiresSignature:true`). -/
structure OwnerCheck where
  deployerMatches : Bool
  deployerAddress : Option String
  requiresSignature : Bool
deriving Repr, DecidableEq

/-- Decision logic of `POST /api/verify-contract-owner` given the
resolved deployer. -/
def verifyContractOwner (deployer : Option String) (walletAddress : String) : OwnerCheck :=
  match deployer with
  | none => ⟨false, none, true⟩
  | some d => ⟨d == toLowerStr walletAddress, some d, false⟩

/-- Outcome of `POST /api/verify-signature`: a malformed signature is a
400 `Invalid signature format` error (`invalidSignature`), otherwise the
endpoint answers 200 with a `verified` boolean. -/
inductive SigOutcome where
  | invalidSignature
  | result (verified : Bool)
deriving Repr, DecidableEq

/-- Decision logic of `POST /api/verify-signature` (after the address
format checks): `recovered` is the outcome of
`ethers.utils.verifyMessage(message, signature)` (`none` = it threw);
`deployer` is the `getContractDeployer` result.  With a deployer, the
recovered signer is compared against the deployer; without one, against
the claimant wallet — both case-insensitively. -/
def verifySignature (deployer : Option String) (recovered : Option String)
    (walletAddress : String) : SigOutcome :=
  match recovered with
  | none => .invalidSignature
  | some recoveredAddress =>
    match deployer with
    | some d => .result (toLowerStr recoveredAddress == toLowerStr d)
    | none => .result (toLowerStr recoveredAddress == toLowerStr walletAddress)

/-! ## Stats aggregation (`updateAllStats`, `calculateUniqueWallets`) -/

/-- One step of `calculateUniqueWallets`' set insertion:
`if (x) wallets.add(x.toLowerCase())` — the JS `Set` is modelled as a
duplicate-free list in insertion order. -/
def addWallet (ws : List String) (o : Option String) : List String :=
  match o with
  | none => ws
  | some s =>
    if s.isEmpty then ws
    else if ws.contains (toLowerStr s) then ws
    else ws ++ [toLowerStr s]

/-- The set of wallets accumulated by `calculateUniqueWallets`. -/
def walletSet (txs : List Tx) : List String :=
  txs.foldl (fun ws tx => addWallet (addWallet ws tx.fromAddr) tx.toAddr) []

/-- `calculateUniqueWallets(transactions)`: size of the set of lowercased
`from`/`to` addresses. -/
def calculateUniqueWallets (txs : List Tx) : Nat :=
  (walletSet txs).length

/-- `getContractTransactions`: any axios/API failure is caught and turned
into an empty list (`catch ... return []`, and a non-`'1'` status also
yields `[]`). -/
def getContractTransactions (response : Except Unit (List Tx)) : List Tx :=
  match response with
  | .ok txs => txs
  | .error _ => []

/-- `const twelveHoursAgo = Math.floor(Date.now() / 1000) - (12 * 60 * 60)`. -/
def twelveHoursAgo (now : Int) : Int := now - 12 * 60 * 60

/-- `transactions.filter(tx => parseInt(tx.timeStamp) >= twelveHoursAgo)`. -/
def recentTransactions (now : Int) (txs : List Tx) : List Tx :=
  txs.filter (fun tx => decide (twelveHoursAgo now ≤ tx.timeStamp))

/-- Growth-rate computation of `updateAllStats`: `growthRate = 0`, and
when a previous `project_stats` row exists with `total_transactions > 0`,
`growthRate = ((totalTransactions - prevTx) / prevTx) * 100`. -/
def computeGrowthRate (prevTotal : Option Nat) (totalTransactions : Nat) : ℚ :=
  match prevTotal with
  | none => 0
  | some prevTx =>
    if 0 < prevTx then ((totalTransactions : ℚ) - (prevTx : ℚ)) / (prevTx : ℚ) * 100
    else 0

/-- One row of the `project_stats` table (timestamps elided). -/
structure StatsRow where
  walletAddress : String
  mainContract : String
  totalTransactions : Nat
  transactionsLast12h : Nat
  uniqueWallets : Nat
  walletsLast12h : Nat
  growthRate : ℚ
  rankTx : Option Nat
  rankUnique : Option Nat
deriving Repr, DecidableEq, Inhabited

/-- The `INSERT ... ON CONFLICT (wallet_address) DO UPDATE` upsert of
`updateAllStats`: the five stat columns are overwritten, the rank columns
are untouched on update and `NULL` on a fresh insert. -/
def upsertStats (table : List StatsRow) (w mc : String)
    (total last12 uniq uniq12 : Nat) (growth : ℚ) : List StatsRow :=
  if (table.find? (fun r => decide (r.walletAddress = w))).isSome then
    table.map (fun r =>
      if r.walletAddress = w then
        { r with totalTransactions := total, transactionsLast12h := last12,
                 uniqueWallets := uniq, walletsLast12h := uniq12, growthRate := growth }
      else r)
  else
    table ++ [⟨w, mc, total, last12, uniq, uniq12, growth, none, none⟩]

/-- One possible value of `ROW_NUMBER() OVER (ORDER BY v DESC)` for row
`i` of a table read as a list: one plus the number of rows numbered
before row `i` in the execution whose ties happen to follow table order.
The SQL has no secondary sort key, so this is a single admissible
execution of the window, not its full semantics — that is
`admissibleRowNumbers` below. -/
def rowNumber (vals : List Nat) (i : Nat) : Nat :=
  1 + ((Finset.range vals.length).filter (fun j =>
        vals.getD i 0 < vals.getD j 0 ∨ (vals.getD j 0 = vals.getD i 0 ∧ j < i))).card

/-- One possible outcome of `recalculateRankings` (the execution whose
ties follow table order): every `project_stats` row receives
`rank_tx = ROW_NUMBER() OVER (ORDER BY total_transactions DESC)` and
`rank_unique = ROW_NUMBER() OVER (ORDER BY unique_wallets DESC)`, joined
back by the unique `wallet_address` key (hence positionally).  The
nondeterministic semantics of the source SQL is `recalculateRankingsRel`
below; `recalculateRankings_admissible` shows this function realises
one of its outcomes. -/
def recalculateRankings (rows : List StatsRow) : List StatsRow :=
  (List.range rows.length).map (fun i =>
    { rows.getD i default with
      rankTx := some (rowNumber (rows.map (·.totalTransactions)) i),
      rankUnique := some (rowNumber (rows.map (·.uniqueWallets)) i) })

/-- Faithful semantics of the ranking SQL: `ROW_NUMBER() OVER (ORDER BY
v DESC)` with no secondary sort key numbers the rows `1..n` along some
order in which the values are non-increasing; among equal values the
order is unspecified (PostgreSQL gives no guarantee).  `ranks` is an
admissible numbering for `vals`: a permutation of `1..n` in which a
strictly larger value always receives a strictly smaller number. -/
def admissibleRowNumbers (vals ranks : List Nat) : Prop :=
  ranks.Perm (List.range' 1 vals.length) ∧
  ∀ i < vals.length, ∀ j < vals.length,
    vals.getD j 0 < vals.getD i 0 → ranks.getD i 0 < ranks.getD j 0

instance (vals ranks : List Nat) : Decidable (admissibleRowNumbers vals ranks) := by
  unfold admissibleRowNumbers
  infer_instance

/-- Faithful semantics of `recalculateRankings`: the table after the two
`UPDATE ... FROM (SELECT wallet_address, ROW_NUMBER() ...)` statements,
for SOME admissible pair of window numberings — the tie-order
nondeterminism of the source SQL is kept as a relation between the
input and output tables. -/
def recalculateRankingsRel (rows rows' : List StatsRow) : Prop :=
  ∃ txRanks uniqueRanks : List Nat,
    admissibleRowNumbers (rows.map (·.totalTransactions)) txRanks ∧
    admissibleRowNumbers (rows.map (·.uniqueWallets)) uniqueRanks ∧
    rows'.length = rows.length ∧
    ∀ i < rows.length, rows'.getD i default =
      { rows.getD i default with
        rankTx := some (txRanks.getD i 0),
        rankUnique := some (uniqueRanks.getD i 0) }

/-- An approved developer as selected by `updateAllStats`
(`SELECT wallet_address, main_contract ... WHERE is_approved = TRUE`). -/
structure ApprovedProject where
  walletAddress : String
  mainContract : String
deriving Repr, DecidableEq

/-- The stats pass `updateAllStats`, followed by `recalculateRankings`.
`fetchTx` is the Basescan `txlist` call for a contract (`.error` = the
request failed); `dbThrows w` models an exception thrown inside the
per-project `try` body (in this code only the database calls can throw —
a fetch failure is swallowed by `getContractTransactions`): the
per-project `catch` logs it and moves on, leaving the table untouched
for that project. -/
def updateAllStats (fetchTx : String → Except Unit (List Tx)) (dbThrows : String → Bool)
    (now : Int) (devs : List ApprovedProject) (stats : List StatsRow) : List StatsRow :=
  recalculateRankings
    (devs.foldl (fun acc dev =>
      if dbThrows dev.walletAddress then acc
      else
        let transactions := getContractTransactions (fetchTx dev.mainContract)
        let totalTransactions := transactions.length
        let uniqueWallets := calculateUniqueWallets transactions
        let recent := recentTransactions now transactions
        let transactionsLast12h := recent.length
        let walletsLast12h := calculateUniqueWallets recent
        let prevTotal := (acc.find? (fun r => decide (r.walletAddress = dev.walletAddress))).map
          (·.totalTransactions)
        let growthRate := computeGrowthRate prevTotal totalTransactions
        upsertStats acc dev.walletAddress dev.mainContract totalTransactions
          transactionsLast12h uniqueWallets walletsLast12h growthRate) stats)

/-! ## Registration gate (`POST /api/register`, `developers` table) -/

/-- One row of the `developers` table (id and timestamps elided; the
tri-state review status is the `is_approved`/`is_rejected` pair, with
pending = neither). -/
structure Developer where
  walletAddress : String
  xUsername : String
  projectX : Option String
  githubLink : Option String
  mainContract : String
  optionalContract1 : Option String
  optionalContract2 : Option String
  verificationSignature : Option String
  isApproved : Bool
  isRejected : Bool
  rejectionReason : Option String
deriving Repr, DecidableEq, Inhabited

/-- A row is pending exactly when it is neither approved nor rejected
(the server's pending query: `is_approved = FALSE AND is_rejected = FALSE`). -/
def Developer.isPending (d : Developer) : Bool :=
  !d.isApproved && !d.isRejected

/-- The body of a `POST /api/register` request; absent JSON fields are
`none`, and a present-but-empty string behaves as falsy just as in JS
(required fields model `undefined` as `""`). -/
structure RegisterRequest where
  walletAddress : String
  xUsername : String
  projectX : Option String
  githubLink : Option String
  mainContract : String
  optionalContract1 : Option String
  optionalContract2 : Option String
  verificationSignature : Option String
deriving Repr, DecidableEq

/-- `projectX && projectX.trim() ? projectX.trim() : null`. -/
def cleanText (o : Option String) : Option String :=
  match o with
  | none => none
  | some s => if (trimStr s).isEmpty then none else some (trimStr s)

/-- `c && c.trim() ? c.trim().toLowerCase() : null` for the optional
contract columns. -/
def cleanAddr (o : Option String) : Option String :=
  match o with
  | none => none
  | some s => if (trimStr s).isEmpty then none else some (toLowerStr (trimStr s))

/-- `verificationSignature || null`. -/
def cleanFalsy (o : Option String) : Option String :=
  match o with
  | none => none
  | some s => if s.isEmpty then none else some s

/-- `xUsername.startsWith('@') ? xUsername : '@' + xUsername`. -/
def formatXUsername (x : String) : String :=
  if strStartsWith x "@" then x else "@" ++ x

/-- `SELECT * FROM developers WHERE wallet_address = $1` with the
lowercased wallet as parameter. -/
def lookupDeveloper (table : List Developer) (walletAddress : String) : Option Developer :=
  table.find? (fun d => decide (d.walletAddress = toLowerStr walletAddress))

/-- The row inserted by a first registration (`is_approved = FALSE`,
`is_rejected = FALSE`, `rejection_reason` left at its `NULL` default). -/
def newDeveloper (req : RegisterRequest) : Developer where
  walletAddress := toLowerStr req.walletAddress
  xUsername := formatXUsername req.xUsername
  projectX := cleanText req.projectX
  githubLink := cleanText req.githubLink
  mainContract := toLowerStr req.mainContract
  optionalContract1 := cleanAddr req.optionalContract1
  optionalContract2 := cleanAddr req.optionalContract2
  verificationSignature := cleanFalsy req.verificationSignature
  isApproved := false
  isRejected := false
  rejectionReason := none

/-- The `UPDATE developers SET ... WHERE wallet_address = $8` applied on
resubmission: mutable fields overwritten, status reset to pending,
rejection reason cleared; rows with another key are untouched. -/
def resubmitUpdate (req : RegisterRequest) (row : Developer) : Developer :=
  if row.walletAddress = toLowerStr req.walletAddress then
    { row with
      xUsername := formatXUsername req.xUsername,
      projectX := cleanText req.projectX,
      githubLink := cleanText req.githubLink,
      mainContract := toLowerStr req.mainContract,
      optionalContract1 := cleanAddr req.optionalContract1,
      optionalContract2 := cleanAddr req.optionalContract2,
      verificationSignature := cleanFalsy req.verificationSignature,
      isApproved := false,
      isRejected := false,
      rejectionReason := none }
  else row

/-- Result of `POST /api/register`: the 400 validation errors, the two
403 ownership rejections (a found-but-different deployer is reported to
the user with its address), the duplicate-submission conflicts, and
success carrying `isResubmission`. -/
inductive RegisterResult where
  | missingFields
  | invalidWallet
  | invalidContract
  | ownershipMismatch (deployerAddress : String)
  | deployerNotFound
  | alreadyApproved
  | alreadyPending
  | ok (isResubmission : Bool)
deriving Repr, DecidableEq

/-- The `POST /api/register` handler: field and address validation, then
the ownership check against the resolved `deployer` (performed before
the duplicate lookup), then the per-wallet state machine on the
`developers` table.  Returns the response and the table after the
request. -/
def register (deployer : Option String) (req : RegisterRequest)
    (table : List Developer) : RegisterResult × List Developer :=
  if req.walletAddress.isEmpty || req.xUsername.isEmpty || req.mainContract.isEmpty then
    (.missingFields, table)
  else if !isAddrFormat req.walletAddress then
    (.invalidWallet, table)
  else if !isAddrFormat req.mainContract then
    (.invalidContract, table)
  else
    match deployer with
    | none => (.deployerNotFound, table)
    | some d =>
      if toLowerStr d ≠ toLowerStr req.walletAddress then
        (.ownershipMismatch d, table)
      else
        match lookupDeveloper table req.walletAddress with
        | some existingRecord =>
          if existingRecord.isApproved then (.alreadyApproved, table)
          else if !existingRecord.isRejected then (.alreadyPending, table)
          else (.ok true, table.map (resubmitUpdate req))
        | none => (.ok false, table ++ [newDeveloper req])

/-- Request validity as checked by the handler before any ownership
work: required fields present and both addresses syntactically valid. -/
def requestValid (req : RegisterRequest) : Prop :=
  req.walletAddress.isEmpty = false ∧ req.xUsername.isEmpty = false ∧
  req.mainContract.isEmpty = false ∧
  isAddrFormat req.walletAddress = true ∧ isAddrFormat req.mainContract = true

instance : DecidablePred requestValid := fun req => by
  unfold requestValid; infer_instance

/-- `GET /api/check-status/:walletAddress`: the path parameter is
lowercased and looked up; the response carries existence and the two
status booleans. -/
def checkStatus (table : List Developer) (walletAddress : String) : Bool × Bool × Bool :=
  match lookupDeveloper table walletAddress with
  | none => (false, false, false)
  | some d => (true, d.isApproved, d.isRejected)

/-- The database write of `POST /api/verify-signature` on success:
`UPDATE developers SET verification_signature = $1 WHERE wallet_address = $2`
with the lowercased wallet. -/
def saveSignature (table : List Developer) (walletAddress sig : String) : List Developer :=
  table.map (fun d =>
    if d.walletAddress = toLowerStr walletAddress then
      { d with verificationSignature := some sig }
    else d)

/-- The `wallet_address UNIQUE NOT NULL` constraint of the `developers`
table: distinct rows carry distinct wallet keys. -/
def uniqueWalletKeys (table : List Developer) : Prop :=
  table.Pairwise (fun a b => a.walletAddress ≠ b.walletAddress)

/-- Modelled from the spec's wording of the creation-transaction test
(for comparison with `isCreationTx` from the source): destination
empty/null (the explorer's empty or `0x` placeholder), or
contract-created equal to the target, or a sender other than the target
itself. -/
def claimCreationTest (normalizedAddress : String) (tx : Tx) : Bool :=
  (txToL tx == "" || txToL tx == "0x")
    || txContractL tx == normalizedAddress
    || txFromL tx != normalizedAddress

/-- Modelled from the spec's wording of the transaction-list scan (for
comparison with `getContractDeployerTxScan`): the sender of the first
transaction satisfying `claimCreationTest`, else the sender of the very
first transaction as fallback. -/
def claimDeployerResolution (contractAddress : String) (txs : List Tx) : Option String :=
  match txs.find? (claimCreationTest (toLowerStr contractAddress)) with
  | some tx => some (txFromL tx)
  | none => txs.head?.map txFromL

/-! ## Theorems -/

/-- C8: for every project in a stats pass, the computed growth rate
equals `(total - prev) / prev * 100` when a previous total transaction
count greater than `0` exists, and equals `0` otherwise — in particular
it is `0` whenever the previous total is `0`, whatever the new total. -/
theorem c8_growthRate_formula :
    (∀ (p t : Nat), 0 < p →
      computeGrowthRate (some p) t = ((t : ℚ) - (p : ℚ)) / (p : ℚ) * 100) ∧
    (∀ t : Nat, computeGrowthRate none t = 0) ∧
    (∀ t : Nat, computeGrowthRate (some 0) t = 0) := by
  refine ⟨fun p t h => ?_, fun t => rfl, fun t => rfl⟩
  simp [computeGrowthRate, h]

/-- Witness for C8 at previous total 4 and new total 6. -/
theorem c8_growthRate_formula_witness :
    computeGrowthRate (some 4) 6 = ((6 : ℚ) - (4 : ℚ)) / (4 : ℚ) * 100 :=
  c8_growthRate_formula.1 4 6 (by norm_num)

/-- C9: a transaction lands in the trailing-12-hour sub-list iff its
block timestamp is at least `now - 12h`; the stats pass stores the same
two metrics (count and case-insensitive unique wallets) recomputed over
that sub-list; and in the concrete scenario with transactions at `T-13h`
and `T-1h`, `transactionsLast12h = 1` while `totalTransactions = 2`. -/
theorem c9_twelveHour_window :
    (∀ (now : Int) (txs : List Tx) (tx : Tx),
      tx ∈ recentTransactions now txs ↔ tx ∈ txs ∧ twelveHoursAgo now ≤ tx.timeStamp) ∧
    (∀ (txs : List Tx) (now : Int) (w mc : String),
      updateAllStats (fun _ => .ok txs) (fun _ => false) now [⟨w, mc⟩] [] =
        recalculateRankings [⟨w, mc, txs.length, (recentTransactions now txs).length,
          calculateUniqueWallets txs, calculateUniqueWallets (recentTransactions now txs),
          0, none, none⟩]) ∧
    ((recentTransactions (20 * 3600)
        [⟨some "0xa", some "0xd", none, 7 * 3600⟩,
         ⟨some "0xb", some "0xd", none, 19 * 3600⟩]).length = 1 ∧
      [(⟨some "0xa", some "0xd", none, (7 * 3600 : Int)⟩ : Tx),
       (⟨some "0xb", some "0xd", none, 19 * 3600⟩ : Tx)].length = 2) := by
  refine ⟨?_, fun txs now w mc => rfl, by decide⟩
  intro now txs tx
  simp [recentTransactions, List.mem_filter]

/-- Witness for C9 at a concrete window and transaction. -/
theorem c9_twelveHour_window_witness :
    (⟨some "0xa", some "0xd", none, (19 * 3600 : Int)⟩ : Tx) ∈
      recentTransactions (20 * 3600)
        [⟨some "0xa", some "0xd", none, 19 * 3600⟩] :=
  ((c9_twelveHour_window.1 (20 * 3600)
      [⟨some "0xa", some "0xd", none, 19 * 3600⟩]
      ⟨some "0xa", some "0xd", none, 19 * 3600⟩).mpr
    ⟨by decide, by decide⟩)

/-- C1: with a positively identified deployer, `verified = true` iff the
address recovered from the signature equals that deployer
case-insensitively; with no deployer identified, iff it equals the
claimant wallet; a malformed signature yields the hard
`invalidSignature` error, which is distinct from a `verified = false`
mismatch; and when a deployer is identified, no recovered signer other
than the deployer ever verifies, whoever the claimant is. -/
theorem c1_signature_verification_policy :
    (∀ (d w : String) (recovered : Option String),
      verifySignature (some d) recovered w = .result true ↔
        ∃ r, recovered = some r ∧ toLowerStr r = toLowerStr d) ∧
    (∀ (w : String) (recovered : Option String),
      verifySignature none recovered w = .result true ↔
        ∃ r, recovered = some r ∧ toLowerStr r = toLowerStr w) ∧
    (∀ (deployer : Option String) (w : String),
      verifySignature deployer none w = .invalidSignature) ∧
    (SigOutcome.invalidSignature ≠ .result false) ∧
    (∀ (d r w : String), toLowerStr r ≠ toLowerStr d →
      verifySignature (some d) (some r) w ≠ .result true) := by
  refine ⟨?_, ?_, fun deployer w => by cases deployer <;> rfl, by simp, ?_⟩
  · intro d w recovered
    cases recovered <;> simp [verifySignature]
  · intro w recovered
    cases recovered <;> simp [verifySignature]
  · intro d r w h
    simp [verifySignature, h]

/-- Witness for C1: a mismatched signer (here equal to the claimant
wallet, but not to the resolved deployer) does not verify. -/
theorem c1_signature_verification_policy_witness :
    verifySignature (some "0xAB") (some "0xCD") "0xCD" ≠ .result true :=
  c1_signature_verification_policy.2.2.2.2 "0xAB" "0xCD" "0xCD" (by decide)

/-- C2: for a wallet with no existing submission and a valid request,
`register` inserts a new pending row exactly when the resolved deployer
matches the claimed wallet case-insensitively (`DeployerMatch`); on a
non-matching deployer (`DeployerMismatch`, the rejection carrying the
resolved address) or an unresolved deployer (`DeployerUnknown`) the
request is rejected and no row is inserted. -/
theorem c2_register_ownership_gate :
    ∀ (deployer : Option String) (req : RegisterRequest) (table : List Developer),
      requestValid req →
      lookupDeveloper table req.walletAddress = none →
      ((∀ d, deployer = some d → toLowerStr d = toLowerStr req.walletAddress →
          register deployer req table = (.ok false, table ++ [newDeveloper req]) ∧
          (newDeveloper req).isPending = true) ∧
       (∀ d, deployer = some d → toLowerStr d ≠ toLowerStr req.walletAddress →
          register deployer req table = (.ownershipMismatch d, table)) ∧
       (deployer = none → register deployer req table = (.deployerNotFound, table))) := by
  intro deployer req table hval hlk
  obtain ⟨h1, h2, h3, h4, h5⟩ := hval
  refine ⟨?_, ?_, ?_⟩
  · rintro d rfl hmatch
    exact ⟨by simp [register, h1, h2, h3, h4, h5, hmatch, hlk], rfl⟩
  · rintro d rfl hmm
    simp [register, h1, h2, h3, h4, h5, hmm]
  · rintro rfl
    simp [register, h1, h2, h3, h4, h5]

/-- Witness for C2 at a concrete fresh registration: a matching deployer
inserts the pending row, a mismatching deployer and an unknown deployer
leave the table empty. -/
theorem c2_register_ownership_gate_witness :
    (register (some "0xAaAAAAAAAAAAAAAAAAAAAAAAAAAAAAAAAAAAAAAA")
        ⟨"0xaaaaaaaaaaaaaaaaaaaaaaaaaaaaaaaaaaaaaaaa", "alice", none, none,
         "0xCCCCCCCCCCCCCCCCCCCCCCCCCCCCCCCCCCCCCCCC", none, none, none⟩ [] =
      (.ok false, [] ++ [newDeveloper
        ⟨"0xaaaaaaaaaaaaaaaaaaaaaaaaaaaaaaaaaaaaaaaa", "alice", none, none,
         "0xCCCCCCCCCCCCCCCCCCCCCCCCCCCCCCCCCCCCCCCC", none, none, none⟩])) ∧
    (register none
        ⟨"0xaaaaaaaaaaaaaaaaaaaaaaaaaaaaaaaaaaaaaaaa", "alice", none, none,
         "0xCCCCCCCCCCCCCCCCCCCCCCCCCCCCCCCCCCCCCCCC", none, none, none⟩ [] =
      (.deployerNotFound, [])) :=
  ⟨((c2_register_ownership_gate (some "0xAaAAAAAAAAAAAAAAAAAAAAAAAAAAAAAAAAAAAAAA")
      ⟨"0xaaaaaaaaaaaaaaaaaaaaaaaaaaaaaaaaaaaaaaaa", "alice", none, none,
       "0xCCCCCCCCCCCCCCCCCCCCCCCCCCCCCCCCCCCCCCCC", none, none, none⟩ []
      (by decide) rfl).1 _ rfl (by decide)).1,
   (c2_register_ownership_gate none
      ⟨"0xaaaaaaaaaaaaaaaaaaaaaaaaaaaaaaaaaaaaaaaa", "alice", none, none,
       "0xCCCCCCCCCCCCCCCCCCCCCCCCCCCCCCCCCCCCCCCC", none, none, none⟩ []
      (by decide) rfl).2.2 rfl⟩

/-- C5 counterexample: because the ownership check runs before the
duplicate lookup, a registration from a wallet whose submission is
already approved does not return `alreadyApproved` when the deployer
cannot be resolved — it returns the ownership rejection (the row is
still untouched). -/
theorem c5_counterexample :
    register none
        ⟨"0xaaaaaaaaaaaaaaaaaaaaaaaaaaaaaaaaaaaaaaaa", "alice", none, none,
         "0xCCCCCCCCCCCCCCCCCCCCCCCCCCCCCCCCCCCCCCCC", none, none, none⟩
        [⟨"0xaaaaaaaaaaaaaaaaaaaaaaaaaaaaaaaaaaaaaaaa", "@alice", none, none,
          "0xcccccccccccccccccccccccccccccccccccccccc", none, none, none,
          true, false, none⟩] =
      (.deployerNotFound,
        [⟨"0xaaaaaaaaaaaaaaaaaaaaaaaaaaaaaaaaaaaaaaaa", "@alice", none, none,
          "0xcccccccccccccccccccccccccccccccccccccccc", none, none, none,
          true, false, none⟩]) ∧
    RegisterResult.deployerNotFound ≠ .alreadyApproved := by
  decide

/-- C5 amended: `register` on a wallet whose existing submission is
approved never mutates the stored table, and — for a valid request — it
returns `alreadyApproved` exactly when the ownership check passes (a
deployer was resolved and matches the wallet); otherwise it returns the
ownership rejection, still without mutation. -/
theorem c5_approved_immutable :
    ∀ (deployer : Option String) (req : RegisterRequest) (table : List Developer)
      (e : Developer),
      lookupDeveloper table req.walletAddress = some e →
      e.isApproved = true →
      (register deployer req table).2 = table ∧
      (requestValid req →
        ((register deployer req table).1 = .alreadyApproved ↔
          ∃ d, deployer = some d ∧ toLowerStr d = toLowerStr req.walletAddress)) := by
  intro deployer req table e hlk happ
  constructor
  · unfold register
    split
    · rfl
    · split
      · rfl
      · split
        · rfl
        · cases deployer with
          | none => rfl
          | some d =>
            simp only
            split
            · rfl
            · rw [hlk]
              simp [happ]
  · rintro ⟨h1, h2, h3, h4, h5⟩
    cases deployer with
    | none => simp [register, h1, h2, h3, h4, h5]
    | some d =>
      by_cases hd : toLowerStr d = toLowerStr req.walletAddress
      · simp [register, h1, h2, h3, h4, h5, hd, hlk, happ]
      · simp [register, h1, h2, h3, h4, h5, hd]

/-- Witness for C5 (amended) at a concrete approved row: a matching
deployer yields `alreadyApproved` and the table is unchanged. -/
theorem c5_approved_immutable_witness :
    (register (some "0xaaaaaaaaaaaaaaaaaaaaaaaaaaaaaaaaaaaaaaaa")
        ⟨"0xaaaaaaaaaaaaaaaaaaaaaaaaaaaaaaaaaaaaaaaa", "alice", none, none,
         "0xCCCCCCCCCCCCCCCCCCCCCCCCCCCCCCCCCCCCCCCC", none, none, none⟩
        [⟨"0xaaaaaaaaaaaaaaaaaaaaaaaaaaaaaaaaaaaaaaaa", "@alice", none, none,
          "0xcccccccccccccccccccccccccccccccccccccccc", none, none, none,
          true, false, none⟩]).2 =
      [⟨"0xaaaaaaaaaaaaaaaaaaaaaaaaaaaaaaaaaaaaaaaa", "@alice", none, none,
        "0xcccccccccccccccccccccccccccccccccccccccc", none, none, none,
        true, false, none⟩] ∧
    ((register (some "0xaaaaaaaaaaaaaaaaaaaaaaaaaaaaaaaaaaaaaaaa")
        ⟨"0xaaaaaaaaaaaaaaaaaaaaaaaaaaaaaaaaaaaaaaaa", "alice", none, none,
         "0xCCCCCCCCCCCCCCCCCCCCCCCCCCCCCCCCCCCCCCCC", none, none, none⟩
        [⟨"0xaaaaaaaaaaaaaaaaaaaaaaaaaaaaaaaaaaaaaaaa", "@alice", none, none,
          "0xcccccccccccccccccccccccccccccccccccccccc", none, none, none,
          true, false, none⟩]).1 = .alreadyApproved ↔
      ∃ d, (some "0xaaaaaaaaaaaaaaaaaaaaaaaaaaaaaaaaaaaaaaaa" : Option String) = some d ∧
        toLowerStr d = toLowerStr "0xaaaaaaaaaaaaaaaaaaaaaaaaaaaaaaaaaaaaaaaa") :=
  ⟨(c5_approved_immutable _ _ _
      ⟨"0xaaaaaaaaaaaaaaaaaaaaaaaaaaaaaaaaaaaaaaaa", "@alice", none, none,
       "0xcccccccccccccccccccccccccccccccccccccccc", none, none, none,
       true, false, none⟩ (by decide) rfl).1,
   (c5_approved_immutable _ _ _
      ⟨"0xaaaaaaaaaaaaaaaaaaaaaaaaaaaaaaaaaaaaaaaa", "@alice", none, none,
       "0xcccccccccccccccccccccccccccccccccccccccc", none, none, none,
       true, false, none⟩ (by decide) rfl).2 (by decide)⟩

/-- Helper: the resubmission `UPDATE` never changes a row's wallet key
(`wallet_address` is not among the assigned columns). -/
theorem resubmitUpdate_walletAddress (req : RegisterRequest) (row : Developer) :
    (resubmitUpdate req row).walletAddress = row.walletAddress := by
  unfold resubmitUpdate
  split <;> rfl

/-- Helper: under the `wallet_address UNIQUE` constraint, a successful
key lookup means exactly one row carries that key. -/
theorem countP_eq_one_of_find (table : List Developer) (k : String) (e : Developer)
    (hu : uniqueWalletKeys table)
    (h : table.find? (fun d => decide (d.walletAddress = k)) = some e) :
    table.countP (fun d => decide (d.walletAddress = k)) = 1 := by
  induction table with
  | nil => simp at h
  | cons a t ih =>
    rcases List.pairwise_cons.mp hu with ⟨hne, ht⟩
    by_cases ha : a.walletAddress = k
    · have ht0 : t.countP (fun d => decide (d.walletAddress = k)) = 0 := by
        rw [List.countP_eq_zero]
        intro b hb
        have hnb := hne b hb
        rw [ha] at hnb
        simp [Ne.symm hnb]
      rw [List.countP_cons_of_pos _ _ (by simp [ha]), ht0]
    · rw [List.find?_cons_of_neg _ (by simp [ha])] at h
      rw [List.countP_cons_of_neg _ _ (by simp [ha])]
      exact ih ht h

/-- C6: a resubmission from a rejected wallet that passes the ownership
check succeeds with `isResubmission = true`, leaves exactly one row for
that wallet, and that row is pending with its rejection reason cleared
and its mutable fields overwritten with the new values. -/
theorem c6_resubmission_invariant :
    ∀ (d : String) (req : RegisterRequest) (table : List Developer) (e : Developer),
      requestValid req →
      uniqueWalletKeys table →
      toLowerStr d = toLowerStr req.walletAddress →
      lookupDeveloper table req.walletAddress = some e →
      e.isApproved = false →
      e.isRejected = true →
      (register (some d) req table).1 = .ok true ∧
      ((register (some d) req table).2.countP
        (fun r => decide (r.walletAddress = toLowerStr req.walletAddress))) = 1 ∧
      (∀ row ∈ (register (some d) req table).2,
        row.walletAddress = toLowerStr req.walletAddress →
        row.isPending = true ∧ row.rejectionReason = none ∧
        row.xUsername = formatXUsername req.xUsername ∧
        row.projectX = cleanText req.projectX ∧
        row.githubLink = cleanText req.githubLink ∧
        row.mainContract = toLowerStr req.mainContract ∧
        row.optionalContract1 = cleanAddr req.optionalContract1 ∧
        row.optionalContract2 = cleanAddr req.optionalContract2 ∧
        row.verificationSignature = cleanFalsy req.verificationSignature) := by
  intro d req table e hval hu hd hlk happ hrej
  obtain ⟨h1, h2, h3, h4, h5⟩ := hval
  have hreg : register (some d) req table = (.ok true, table.map (resubmitUpdate req)) := by
    simp [register, h1, h2, h3, h4, h5, hd, hlk, happ, hrej]
  rw [hreg]
  refine ⟨rfl, ?_, ?_⟩
  · rw [List.countP_map]
    have hcomp : ((fun r => decide (r.walletAddress = toLowerStr req.walletAddress)) ∘
        resubmitUpdate req) =
        (fun r : Developer => decide (r.walletAddress = toLowerStr req.walletAddress)) := by
      funext r
      simp [Function.comp, resubmitUpdate_walletAddress]
    rw [hcomp]
    exact countP_eq_one_of_find table _ e hu hlk
  · intro row hrow hkey
    rcases List.mem_map.mp hrow with ⟨r, hr, rfl⟩
    by_cases hrk : r.walletAddress = toLowerStr req.walletAddress
    · unfold resubmitUpdate
      rw [if_pos hrk]
      exact ⟨rfl, rfl, rfl, rfl, rfl, rfl, rfl, rfl, rfl⟩
    · exact absurd (by rw [← resubmitUpdate_walletAddress req r]; exact hkey) hrk

/-- Witness for C6 at a concrete rejected row being resubmitted. -/
theorem c6_resubmission_invariant_witness :
    (register (some "0xAAAAAAAAAAAAAAAAAAAAAAAAAAAAAAAAAAAAAAAA")
        ⟨"0xaaaaaaaaaaaaaaaaaaaaaaaaaaaaaaaaaaaaaaaa", "alice", none, none,
         "0xDDDDDDDDDDDDDDDDDDDDDDDDDDDDDDDDDDDDDDDD", none, none, some "sig2"⟩
        [⟨"0xaaaaaaaaaaaaaaaaaaaaaaaaaaaaaaaaaaaaaaaa", "@alice", none, none,
          "0xcccccccccccccccccccccccccccccccccccccccc", none, none, none,
          false, true, some "incomplete profile"⟩]).1 = .ok true ∧
    ((register (some "0xAAAAAAAAAAAAAAAAAAAAAAAAAAAAAAAAAAAAAAAA")
        ⟨"0xaaaaaaaaaaaaaaaaaaaaaaaaaaaaaaaaaaaaaaaa", "alice", none, none,
         "0xDDDDDDDDDDDDDDDDDDDDDDDDDDDDDDDDDDDDDDDD", none, none, some "sig2"⟩
        [⟨"0xaaaaaaaaaaaaaaaaaaaaaaaaaaaaaaaaaaaaaaaa", "@alice", none, none,
          "0xcccccccccccccccccccccccccccccccccccccccc", none, none, none,
          false, true, some "incomplete profile"⟩]).2.countP
      (fun r => decide (r.walletAddress =
        toLowerStr "0xaaaaaaaaaaaaaaaaaaaaaaaaaaaaaaaaaaaaaaaa"))) = 1 :=
  ⟨(c6_resubmission_invariant "0xAAAAAAAAAAAAAAAAAAAAAAAAAAAAAAAAAAAAAAAA"
      ⟨"0xaaaaaaaaaaaaaaaaaaaaaaaaaaaaaaaaaaaaaaaa", "alice", none, none,
       "0xDDDDDDDDDDDDDDDDDDDDDDDDDDDDDDDDDDDDDDDD", none, none, some "sig2"⟩ _
      ⟨"0xaaaaaaaaaaaaaaaaaaaaaaaaaaaaaaaaaaaaaaaa", "@alice", none, none,
       "0xcccccccccccccccccccccccccccccccccccccccc", none, none, none,
       false, true, some "incomplete profile"⟩
      (by decide) (by simp [uniqueWalletKeys]) (by decide) (by decide) rfl rfl).1,
   (c6_resubmission_invariant "0xAAAAAAAAAAAAAAAAAAAAAAAAAAAAAAAAAAAAAAAA"
      ⟨"0xaaaaaaaaaaaaaaaaaaaaaaaaaaaaaaaaaaaaaaaa", "alice", none, none,
       "0xDDDDDDDDDDDDDDDDDDDDDDDDDDDDDDDDDDDDDDDD", none, none, some "sig2"⟩ _
      ⟨"0xaaaaaaaaaaaaaaaaaaaaaaaaaaaaaaaaaaaaaaaa", "@alice", none, none,
       "0xcccccccccccccccccccccccccccccccccccccccc", none, none, none,
       false, true, some "incomplete profile"⟩
      (by decide) (by simp [uniqueWalletKeys]) (by decide) (by decide) rfl rfl).2.1⟩

/-- Helper: lowercasing preserves emptiness of a string. -/
theorem toLowerStr_eq_empty_iff (s : String) : toLowerStr s = "" ↔ s = "" := by
  constructor
  · intro h
    have hdata : s.data.map Char.toLower = [] := congrArg String.data h
    have hnil : s.data = [] := List.map_eq_nil_iff.mp hdata
    cases s
    exact congrArg String.mk hnil
  · intro h
    rw [h]
    rfl

/-- Helper: on a transaction touching the target address, the code's
creation test agrees with the spec's description of it. -/
theorem isCreationTx_eq_claim (a : String) (tx : Tx)
    (h : txToL tx = "" ∨ txToL tx = "0x" ∨ txContractL tx = a ∨
      txFromL tx = a ∨ txToL tx = a) :
    isCreationTx a tx = claimCreationTest a tx := by
  unfold isCreationTx claimCreationTest
  by_cases hf : txFromL tx = a
  · simp [hf]
  · rcases h with h | h | h | h | h
    · simp [h, hf]
    · simp [h, hf]
    · simp [h, hf]
    · exact absurd h hf
    · simp [h, hf]

/-- Helper: over a transaction list whose entries carry a sender and
touch the target address, the scan loop picks exactly the first
transaction satisfying the spec's creation test. -/
theorem findDeployerScan_eq_find (a : String) (txs : List Tx)
    (h : ∀ tx ∈ txs, optStr tx.fromAddr ≠ "" ∧
      (txToL tx = "" ∨ txToL tx = "0x" ∨ txContractL tx = a ∨ txFromL tx = a ∨ txToL tx = a)) :
    findDeployerScan a txs = (txs.find? (claimCreationTest a)).map txFromL := by
  induction txs with
  | nil => rfl
  | cons tx rest ih =>
    obtain ⟨hne, htouch⟩ := h tx (List.mem_cons_self _ _)
    have hfne : txFromL tx ≠ "" := fun hh => hne ((toLowerStr_eq_empty_iff _).mp hh)
    have hcr := isCreationTx_eq_claim a tx htouch
    unfold findDeployerScan
    by_cases hc : claimCreationTest a tx = true
    · rw [List.find?_cons_of_pos _ hc]
      simp [hcr, hc, hfne]
    · have hc' : claimCreationTest a tx = false := Bool.eq_false_iff.mpr hc
      rw [List.find?_cons_of_neg _ (by simp [hc'])]
      rw [if_neg (by simp [hcr, hc'])]
      exact ih (fun t ht => h t (List.mem_cons_of_mem _ ht))

/-- C7: over a transaction list fetched for the target contract (every
entry carries a non-empty sender and touches the target as sender,
destination or created contract — which is what the explorer's `txlist`
returns), the code's scan resolves the deployer exactly as the spec
describes: the sender of the first transaction whose destination is
empty, whose contract-created field equals the target, or whose sender
is not the target itself, with the very first transaction's sender as
fallback.  In the single-creation-transaction scenario
`[{from: A, to: null}]` the deployer resolves to `A`, claimant `A` gets
a deployer match and claimant `B` gets a mismatch carrying
`deployerAddress = A`. -/
theorem c7_deployer_scan :
    (∀ (contract : String) (txs : List Tx),
      (∀ tx ∈ txs, optStr tx.fromAddr ≠ "" ∧
        (txToL tx = "" ∨ txToL tx = "0x" ∨ txContractL tx = toLowerStr contract ∨
         txFromL tx = toLowerStr contract ∨ txToL tx = toLowerStr contract)) →
      getContractDeployerTxScan contract txs = claimDeployerResolution contract txs) ∧
    (getContractDeployerTxScan "0xCCCCCCCCCCCCCCCCCCCCCCCCCCCCCCCCCCCCCCCC"
        [⟨some "0xAbcdEF0000000000000000000000000000000001", none, none, 100⟩] =
      some "0xabcdef0000000000000000000000000000000001") ∧
    (verifyContractOwner (some "0xabcdef0000000000000000000000000000000001")
        "0xAbcdEF0000000000000000000000000000000001" =
      ⟨true, some "0xabcdef0000000000000000000000000000000001", false⟩) ∧
    (verifyContractOwner (some "0xabcdef0000000000000000000000000000000001")
        "0xBBBBBBBBBBBBBBBBBBBBBBBBBBBBBBBBBBBBBBBB" =
      ⟨false, some "0xabcdef0000000000000000000000000000000001", false⟩) := by
  refine ⟨?_, by decide, by decide, by decide⟩
  intro contract txs h
  unfold getContractDeployerTxScan claimDeployerResolution
  cases txs with
  | nil => rfl
  | cons t rest =>
    simp only [List.isEmpty_cons, if_false, Bool.false_eq_true]
    rw [findDeployerScan_eq_find _ _ h]
    cases hfind : (t :: rest).find? (claimCreationTest (toLowerStr contract)) with
    | some tx => rfl
    | none =>
      obtain ⟨hne, _⟩ := h t (List.mem_cons_self _ _)
      have hemp : (optStr t.fromAddr).isEmpty = false := by
        rw [Bool.eq_false_iff]
        intro hh
        exact hne ((String.isEmpty_iff _).mp hh)
      simp [hemp, txFromL]

/-- Witness for C7's scan equivalence at the single-creation-transaction
list. -/
theorem c7_deployer_scan_witness :
    getContractDeployerTxScan "0xCCCCCCCCCCCCCCCCCCCCCCCCCCCCCCCCCCCCCCCC"
        [⟨some "0xAbcdEF0000000000000000000000000000000001", none, none, 100⟩] =
      claimDeployerResolution "0xCCCCCCCCCCCCCCCCCCCCCCCCCCCCCCCCCCCCCCCC"
        [⟨some "0xAbcdEF0000000000000000000000000000000001", none, none, 100⟩] :=
  c7_deployer_scan.1 "0xCCCCCCCCCCCCCCCCCCCCCCCCCCCCCCCCCCCCCCCC"
    [⟨some "0xAbcdEF0000000000000000000000000000000001", none, none, 100⟩]
    (by decide)

/-- Helper: indexing a map over `List.range`. -/
theorem getD_map_range : ∀ (n : Nat) {α : Type} (f : Nat → α) (d : α) (i : Nat),
    i < n → ((List.range n).map f).getD i d = f i := by
  intro n
  induction n with
  | zero => intro α f d i hi; exact absurd hi (Nat.not_lt_zero i)
  | succ m ih =>
    intro α f d i hi
    rw [List.range_succ_eq_map]
    cases i with
    | zero => rfl
    | succ j =>
      simp only [List.map_cons, List.map_map]
      exact ih (f ∘ Nat.succ) d j (Nat.lt_of_succ_lt_succ hi)

/-- Helper: mapping an index-based read over `List.range` is mapping over
the list itself. -/
theorem map_getD_range {α β : Type} (d : α) (f : α → β) :
    ∀ l : List α, (List.range l.length).map (fun i => f (l.getD i d)) = l.map f := by
  intro l
  induction l with
  | nil => rfl
  | cons a t ih =>
    rw [List.length_cons, List.range_succ_eq_map, List.map_cons, List.map_map]
    have hcomp : ((fun i => f ((a :: t).getD i d)) ∘ Nat.succ) =
        (fun i => f (t.getD i d)) := by
      funext i
      rfl
    rw [hcomp, ih]
    rfl

/-- Helper: `recalculateRankings` preserves the table length. -/
theorem recalculateRankings_length (rows : List StatsRow) :
    (recalculateRankings rows).length = rows.length := by
  unfold recalculateRankings
  simp

/-- Helper: the row produced by `recalculateRankings` at a valid index. -/
theorem recalculateRankings_getD (rows : List StatsRow) (i : Nat) (hi : i < rows.length) :
    (recalculateRankings rows).getD i default =
      { rows.getD i default with
        rankTx := some (rowNumber (rows.map (·.totalTransactions)) i),
        rankUnique := some (rowNumber (rows.map (·.uniqueWallets)) i) } := by
  unfold recalculateRankings
  exact getD_map_range rows.length _ default i hi

/-- Helper: `recalculateRankings` does not change the transaction
totals. -/
theorem recalculateRankings_map_tot (rows : List StatsRow) :
    (recalculateRankings rows).map (·.totalTransactions) =
      rows.map (·.totalTransactions) := by
  unfold recalculateRankings
  rw [List.map_map]
  exact map_getD_range default (·.totalTransactions) rows

/-- Helper: `recalculateRankings` does not change the unique-wallet
counts. -/
theorem recalculateRankings_map_uniq (rows : List StatsRow) :
    (recalculateRankings rows).map (·.uniqueWallets) = rows.map (·.uniqueWallets) := by
  unfold recalculateRankings
  rw [List.map_map]
  exact map_getD_range default (·.uniqueWallets) rows

/-- Helper: reading a projected column at a valid index. -/
theorem getD_map_field {β : Type} (f : StatsRow → β) (d : β) (rows : List StatsRow)
    (i : Nat) (hi : i < rows.length) :
    (rows.map f).getD i d = f (rows.getD i default) := by
  rw [List.getD_eq_getElem (rows.map f) d (by simpa using hi),
      List.getElem_map, List.getD_eq_getElem rows default hi]

/-- Helper: with equal values, the earlier row receives the strictly
smaller `ROW_NUMBER`. -/
theorem rowNumber_lt_of_tie (vals : List Nat) (i j : Nat)
    (hij : i < j) (hj : j < vals.length)
    (hval : vals.getD i 0 = vals.getD j 0) :
    rowNumber vals i < rowNumber vals j := by
  unfold rowNumber
  have hsub : (Finset.range vals.length).filter
      (fun k => vals.getD i 0 < vals.getD k 0 ∨ (vals.getD k 0 = vals.getD i 0 ∧ k < i)) ⊆
      (Finset.range vals.length).filter
      (fun k => vals.getD j 0 < vals.getD k 0 ∨ (vals.getD k 0 = vals.getD j 0 ∧ k < j)) := by
    intro k hk
    rw [Finset.mem_filter] at hk ⊢
    refine ⟨hk.1, ?_⟩
    rcases hk.2 with h | ⟨h1, h2⟩
    · exact Or.inl (hval ▸ h)
    · exact Or.inr ⟨hval ▸ h1, Nat.lt_trans h2 hij⟩
  have hss : (Finset.range vals.length).filter
      (fun k => vals.getD i 0 < vals.getD k 0 ∨ (vals.getD k 0 = vals.getD i 0 ∧ k < i)) ⊂
      (Finset.range vals.length).filter
      (fun k => vals.getD j 0 < vals.getD k 0 ∨ (vals.getD k 0 = vals.getD j 0 ∧ k < j)) := by
    rw [Finset.ssubset_iff_of_subset hsub]
    refine ⟨i, ?_, ?_⟩
    · rw [Finset.mem_filter]
      exact ⟨Finset.mem_range.mpr (Nat.lt_trans hij hj), Or.inr ⟨hval, hij⟩⟩
    · rw [Finset.mem_filter]
      rintro ⟨-, h | ⟨-, h⟩⟩
      · exact absurd h (lt_irrefl _)
      · exact absurd h (lt_irrefl _)
  have := Finset.card_lt_card hss
  omega
/-- Helper: a strictly larger value receives a strictly smaller
`rowNumber`. -/
theorem rowNumber_lt_of_val_lt (vals : List Nat) (i j : Nat)
    (hi : i < vals.length) (_hj : j < vals.length)
    (hval : vals.getD j 0 < vals.getD i 0) :
    rowNumber vals i < rowNumber vals j := by
  unfold rowNumber
  have hsub : (Finset.range vals.length).filter
      (fun k => vals.getD i 0 < vals.getD k 0 ∨ (vals.getD k 0 = vals.getD i 0 ∧ k < i)) ⊆
      (Finset.range vals.length).filter
      (fun k => vals.getD j 0 < vals.getD k 0 ∨ (vals.getD k 0 = vals.getD j 0 ∧ k < j)) := by
    intro k hk
    rw [Finset.mem_filter] at hk ⊢
    refine ⟨hk.1, Or.inl ?_⟩
    rcases hk.2 with h | ⟨h1, -⟩
    · omega
    · omega
  have hss : (Finset.range vals.length).filter
      (fun k => vals.getD i 0 < vals.getD k 0 ∨ (vals.getD k 0 = vals.getD i 0 ∧ k < i)) ⊂
      (Finset.range vals.length).filter
      (fun k => vals.getD j 0 < vals.getD k 0 ∨ (vals.getD k 0 = vals.getD j 0 ∧ k < j)) := by
    rw [Finset.ssubset_iff_of_subset hsub]
    refine ⟨i, ?_, ?_⟩
    · rw [Finset.mem_filter]
      exact ⟨Finset.mem_range.mpr hi, Or.inl hval⟩
    · rw [Finset.mem_filter]
      rintro ⟨-, h | ⟨-, h⟩⟩
      · exact absurd h (lt_irrefl _)
      · exact absurd h (lt_irrefl _)
  have := Finset.card_lt_card hss
  omega

/-- Helper: distinct rows receive distinct `rowNumber`s. -/
theorem rowNumber_ne (vals : List Nat) (i j : Nat)
    (hi : i < vals.length) (hj : j < vals.length) (hij : i ≠ j) :
    rowNumber vals i ≠ rowNumber vals j := by
  rcases Nat.lt_or_ge i j with h | h
  · rcases lt_trichotomy (vals.getD i 0) (vals.getD j 0) with hv | hv | hv
    · exact ne_of_gt (rowNumber_lt_of_val_lt vals j i hj hi hv)
    · exact ne_of_lt (rowNumber_lt_of_tie vals i j h hj hv)
    · exact ne_of_lt (rowNumber_lt_of_val_lt vals i j hi hj hv)
  · have h' : j < i := by omega
    rcases lt_trichotomy (vals.getD i 0) (vals.getD j 0) with hv | hv | hv
    · exact ne_of_gt (rowNumber_lt_of_val_lt vals j i hj hi hv)
    · exact ne_of_gt (rowNumber_lt_of_tie vals j i h' hi hv.symm)
    · exact ne_of_lt (rowNumber_lt_of_val_lt vals i j hi hj hv)

/-- Helper: `rowNumber` values lie in `1..n`. -/
theorem rowNumber_bounds (vals : List Nat) (i : Nat) (hi : i < vals.length) :
    1 ≤ rowNumber vals i ∧ rowNumber vals i ≤ vals.length := by
  unfold rowNumber
  refine ⟨by omega, ?_⟩
  have hsub : (Finset.range vals.length).filter
      (fun k => vals.getD i 0 < vals.getD k 0 ∨ (vals.getD k 0 = vals.getD i 0 ∧ k < i)) ⊆
      (Finset.range vals.length).erase i := by
    intro k hk
    rw [Finset.mem_filter] at hk
    rw [Finset.mem_erase]
    refine ⟨?_, hk.1⟩
    rintro rfl
    rcases hk.2 with h | ⟨-, h⟩
    · exact lt_irrefl _ h
    · exact lt_irrefl _ h
  have hcard := Finset.card_le_card hsub
  rw [Finset.card_erase_of_mem (Finset.mem_range.mpr hi), Finset.card_range] at hcard
  omega

/-- Helper: the `rowNumber`s of a table form a permutation of `1..n`. -/
theorem rowNumber_perm (vals : List Nat) :
    ((List.range vals.length).map (rowNumber vals)).Perm
      (List.range' 1 vals.length) := by
  have hnd : ((List.range vals.length).map (rowNumber vals)).Nodup := by
    refine (List.nodup_range vals.length).map_on ?_
    intro x hx y hy hxy
    rw [List.mem_range] at hx hy
    by_contra hne
    exact rowNumber_ne vals x y hx hy hne hxy
  have hsubset : (List.range vals.length).map (rowNumber vals) ⊆
      List.range' 1 vals.length := by
    intro x hx
    rcases List.mem_map.mp hx with ⟨k, hk, rfl⟩
    rw [List.mem_range] at hk
    have hb := rowNumber_bounds vals k hk
    rw [List.mem_range'_1]
    omega
  apply (List.subperm_of_subset hnd hsubset).perm_of_length_le
  simp

/-- Helper: counting the numbers below `r` in `range n`. -/
theorem countP_lt_range (r : Nat) : ∀ n : Nat,
    (List.range n).countP (fun x => decide (x < r)) = min r n := by
  intro n
  induction n with
  | zero => simp
  | succ m ih =>
    rw [List.range_succ, List.countP_append, ih]
    by_cases h : m < r
    · simp [List.countP_cons, h]
      omega
    · simp [List.countP_cons, h]
      omega

/-- Helper: counting the numbers below `r` among `1..n`. -/
theorem countP_lt_range' (r n : Nat) :
    (List.range' 1 n).countP (fun x => decide (x < r)) = min (r - 1) n := by
  rw [List.range'_eq_map_range, List.countP_map]
  have hc : ∀ a ∈ List.range n,
      (((fun x => decide (x < r)) ∘ (1 + ·)) a = true ↔
        (fun x => decide (x < r - 1)) a = true) := by
    intro a _
    simp only [Function.comp_apply, decide_eq_true_eq]
    omega
  rw [List.countP_congr hc, countP_lt_range]

/-- Helper: counting matching indices equals counting matching
elements. -/
theorem countP_getD_range (p : Nat → Bool) (l : List Nat) :
    (List.range l.length).countP (fun j => p (l.getD j 0)) = l.countP p := by
  have h : (List.range l.length).map (fun i => l.getD i 0) = l := by
    have h2 := map_getD_range 0 (fun x : Nat => x) l
    simpa using h2
  conv_rhs => rw [← h]
  rw [List.countP_map]
  rfl

/-- Helper: bounds of an entry of a permutation of `1..n`. -/
theorem ranks_getD_bounds {ranks : List Nat} {n : Nat}
    (hp : ranks.Perm (List.range' 1 n)) (i : Nat) (hi : i < n) :
    1 ≤ ranks.getD i 0 ∧ ranks.getD i 0 ≤ n := by
  have hlen : ranks.length = n := by simpa using hp.length_eq
  have hmem : ranks.getD i 0 ∈ ranks := by
    rw [List.getD_eq_getElem ranks 0 (by omega)]
    exact List.getElem_mem _
  have h2 := hp.mem_iff.mp hmem
  rw [List.mem_range'_1] at h2
  omega

/-- Helper: each entry of an admissible numbering is one plus the number
of positions numbered before it. -/
theorem admissible_getD_eq {vals ranks : List Nat}
    (h : admissibleRowNumbers vals ranks) (i : Nat) (hi : i < vals.length) :
    ranks.getD i 0 = 1 + (List.range vals.length).countP
      (fun j => decide (ranks.getD j 0 < ranks.getD i 0)) := by
  obtain ⟨hp, -⟩ := h
  have hlen : ranks.length = vals.length := by simpa using hp.length_eq
  have hb := ranks_getD_bounds hp i hi
  have hcount := countP_getD_range (fun x => decide (x < ranks.getD i 0)) ranks
  rw [← hlen, hcount, hp.countP_eq, countP_lt_range']
  rw [Nat.min_eq_left (by omega)]
  omega

/-- Helper: with pairwise-distinct values, the admissible numbering is
unique. -/
theorem admissibleRowNumbers_unique {vals ranks1 ranks2 : List Nat}
    (hdist : ∀ i < vals.length, ∀ j < vals.length, i ≠ j →
      vals.getD i 0 ≠ vals.getD j 0)
    (h1 : admissibleRowNumbers vals ranks1)
    (h2 : admissibleRowNumbers vals ranks2) :
    ranks1 = ranks2 := by
  have hl1 : ranks1.length = vals.length := by simpa using h1.1.length_eq
  have hl2 : ranks2.length = vals.length := by simpa using h2.1.length_eq
  have key : ∀ ranks : List Nat, admissibleRowNumbers vals ranks →
      ∀ i, i < vals.length → ranks.getD i 0 = 1 + (List.range vals.length).countP
        (fun j => decide (vals.getD i 0 < vals.getD j 0)) := by
    intro ranks h i hi
    rw [admissible_getD_eq h i hi]
    congr 1
    apply List.countP_congr
    intro j hj
    rw [List.mem_range] at hj
    simp only [decide_eq_true_eq]
    constructor
    · intro hlt
      have hij : j ≠ i := fun hji => by subst hji; exact lt_irrefl _ hlt
      rcases lt_trichotomy (vals.getD i 0) (vals.getD j 0) with hv | hv | hv
      · exact hv
      · exact absurd hv.symm (hdist j hj i hi hij)
      · exact absurd hlt (by have := h.2 i hi j hj hv; omega)
    · intro hv
      exact h.2 j hj i hi hv
  apply List.ext_getElem (by omega)
  intro i hi1 hi2
  rw [← List.getD_eq_getElem ranks1 0 hi1, ← List.getD_eq_getElem ranks2 0 hi2,
      key ranks1 h1 i (by omega), key ranks2 h2 i (by omega)]

/-- Helper: pairwise-distinct column values transfer to the mapped value
list. -/
theorem distinct_map_field {f : StatsRow → Nat} {rows : List StatsRow}
    (hd : ∀ i < rows.length, ∀ j < rows.length, i ≠ j →
      f (rows.getD i default) ≠ f (rows.getD j default)) :
    ∀ i < (rows.map f).length, ∀ j < (rows.map f).length, i ≠ j →
      (rows.map f).getD i 0 ≠ (rows.map f).getD j 0 := by
  intro i hi j hj hij
  rw [getD_map_field _ _ _ i (by simpa using hi),
      getD_map_field _ _ _ j (by simpa using hj)]
  exact hd i (by simpa using hi) j (by simpa using hj) hij

/-- Helper: the concrete `recalculateRankings` computes one admissible
outcome of the ranking SQL. -/
theorem recalculateRankings_admissible (rows : List StatsRow) :
    recalculateRankingsRel rows (recalculateRankings rows) := by
  refine ⟨(List.range rows.length).map (rowNumber (rows.map (·.totalTransactions))),
          (List.range rows.length).map (rowNumber (rows.map (·.uniqueWallets))),
          ⟨?_, ?_⟩, ⟨?_, ?_⟩, recalculateRankings_length rows, ?_⟩
  · have h := rowNumber_perm (rows.map (·.totalTransactions))
    simpa using h
  · intro i hi j hj hv
    rw [getD_map_range rows.length _ 0 i (by simpa using hi),
        getD_map_range rows.length _ 0 j (by simpa using hj)]
    exact rowNumber_lt_of_val_lt _ i j (by simpa using hi) (by simpa using hj) hv
  · have h := rowNumber_perm (rows.map (·.uniqueWallets))
    simpa using h
  · intro i hi j hj hv
    rw [getD_map_range rows.length _ 0 i (by simpa using hi),
        getD_map_range rows.length _ 0 j (by simpa using hj)]
    exact rowNumber_lt_of_val_lt _ i j (by simpa using hi) (by simpa using hj) hv
  · intro i hi
    rw [recalculateRankings_getD rows i hi,
        getD_map_range rows.length _ 0 i hi, getD_map_range rows.length _ 0 i hi]

/-- C3 counterexample: with two rows tied on both metrics, the ranking
SQL (`ROW_NUMBER()` with no secondary sort key) admits two different
outcomes on the same input — the tied rows may be numbered in either
order — so the ranking step is not a deterministic function of the
stats set: running it twice need not reproduce the same rank
assignments, and the first-seen row may receive the larger rank. -/
theorem c3_counterexample :
    recalculateRankingsRel
        [⟨"0xa1", "0xc1", 5, 0, 2, 0, 0, none, none⟩,
         ⟨"0xa2", "0xc2", 5, 0, 2, 0, 0, none, none⟩]
        [⟨"0xa1", "0xc1", 5, 0, 2, 0, 0, some 1, some 1⟩,
         ⟨"0xa2", "0xc2", 5, 0, 2, 0, 0, some 2, some 2⟩] ∧
    recalculateRankingsRel
        [⟨"0xa1", "0xc1", 5, 0, 2, 0, 0, none, none⟩,
         ⟨"0xa2", "0xc2", 5, 0, 2, 0, 0, none, none⟩]
        [⟨"0xa1", "0xc1", 5, 0, 2, 0, 0, some 2, some 2⟩,
         ⟨"0xa2", "0xc2", 5, 0, 2, 0, 0, some 1, some 1⟩] ∧
    (([⟨"0xa1", "0xc1", 5, 0, 2, 0, 0, some 2, some 2⟩,
       (⟨"0xa2", "0xc2", 5, 0, 2, 0, 0, some 1, some 1⟩ : StatsRow)].getD 0
        default).rankTx = some 2 ∧
     ([⟨"0xa1", "0xc1", 5, 0, 2, 0, 0, some 2, some 2⟩,
       (⟨"0xa2", "0xc2", 5, 0, 2, 0, 0, some 1, some 1⟩ : StatsRow)].getD 1
        default).rankTx = some 1) ∧
    ¬ (∀ out1 out2 : List StatsRow,
        recalculateRankingsRel
          [⟨"0xa1", "0xc1", 5, 0, 2, 0, 0, none, none⟩,
           ⟨"0xa2", "0xc2", 5, 0, 2, 0, 0, none, none⟩] out1 →
        recalculateRankingsRel
          [⟨"0xa1", "0xc1", 5, 0, 2, 0, 0, none, none⟩,
           ⟨"0xa2", "0xc2", 5, 0, 2, 0, 0, none, none⟩] out2 →
        out1 = out2) := by
  have h1 : recalculateRankingsRel
      [⟨"0xa1", "0xc1", 5, 0, 2, 0, 0, none, none⟩,
       ⟨"0xa2", "0xc2", 5, 0, 2, 0, 0, none, none⟩]
      [⟨"0xa1", "0xc1", 5, 0, 2, 0, 0, some 1, some 1⟩,
       ⟨"0xa2", "0xc2", 5, 0, 2, 0, 0, some 2, some 2⟩] :=
    ⟨[1, 2], [1, 2], by decide, by decide, rfl, by decide⟩
  have h2 : recalculateRankingsRel
      [⟨"0xa1", "0xc1", 5, 0, 2, 0, 0, none, none⟩,
       ⟨"0xa2", "0xc2", 5, 0, 2, 0, 0, none, none⟩]
      [⟨"0xa1", "0xc1", 5, 0, 2, 0, 0, some 2, some 2⟩,
       ⟨"0xa2", "0xc2", 5, 0, 2, 0, 0, some 1, some 1⟩] :=
    ⟨[2, 1], [2, 1], by decide, by decide, rfl, by decide⟩
  refine ⟨h1, h2, by decide, fun hall => ?_⟩
  exact absurd (hall _ _ h1 h2) (by decide)

/-- C3 corrected: the ranking SQL guarantees of every pass outcome only
that each row receives 1-based ranks with a strictly larger metric
getting a strictly smaller rank; the concrete `recalculateRankings`
realises one admissible outcome.  The claimed determinism and
idempotence hold exactly in the absence of ties: with pairwise-distinct
metric values the admissible outcome is unique, and a second ranking
pass maps the output back to itself. -/
theorem c3_rankings_corrected :
    (∀ rows : List StatsRow, recalculateRankingsRel rows (recalculateRankings rows)) ∧
    (∀ (rows out : List StatsRow), recalculateRankingsRel rows out →
      out.length = rows.length ∧
      ∀ i < rows.length, ∃ ti ui,
        (out.getD i default).rankTx = some ti ∧
        (out.getD i default).rankUnique = some ui ∧
        1 ≤ ti ∧ ti ≤ rows.length ∧ 1 ≤ ui ∧ ui ≤ rows.length) ∧
    (∀ (rows out : List StatsRow), recalculateRankingsRel rows out →
      ∀ i < rows.length, ∀ j < rows.length,
        (rows.getD j default).totalTransactions <
            (rows.getD i default).totalTransactions →
        ∀ ri rj, (out.getD i default).rankTx = some ri →
          (out.getD j default).rankTx = some rj → ri < rj) ∧
    (∀ (rows out1 out2 : List StatsRow),
      (∀ i < rows.length, ∀ j < rows.length, i ≠ j →
        (rows.getD i default).totalTransactions ≠
          (rows.getD j default).totalTransactions) →
      (∀ i < rows.length, ∀ j < rows.length, i ≠ j →
        (rows.getD i default).uniqueWallets ≠ (rows.getD j default).uniqueWallets) →
      recalculateRankingsRel rows out1 → recalculateRankingsRel rows out2 →
      out1 = out2) ∧
    (∀ (rows out out' : List StatsRow),
      (∀ i < rows.length, ∀ j < rows.length, i ≠ j →
        (rows.getD i default).totalTransactions ≠
          (rows.getD j default).totalTransactions) →
      (∀ i < rows.length, ∀ j < rows.length, i ≠ j →
        (rows.getD i default).uniqueWallets ≠ (rows.getD j default).uniqueWallets) →
      recalculateRankingsRel rows out → recalculateRankingsRel out out' →
      out' = out) := by
  refine ⟨recalculateRankings_admissible, ?_, ?_, ?_, ?_⟩
  · intro rows out h
    obtain ⟨t, u, ⟨htp, -⟩, ⟨hup, -⟩, hlen, hpt⟩ := h
    have htp' : t.Perm (List.range' 1 rows.length) := by simpa using htp
    have hup' : u.Perm (List.range' 1 rows.length) := by simpa using hup
    refine ⟨hlen, ?_⟩
    intro i hi
    have hbt := ranks_getD_bounds htp' i hi
    have hbu := ranks_getD_bounds hup' i hi
    refine ⟨t.getD i 0, u.getD i 0, ?_, ?_, hbt.1, hbt.2, hbu.1, hbu.2⟩
    · rw [hpt i hi]
    · rw [hpt i hi]
  · intro rows out h i hi j hj hv ri rj hri hrj
    obtain ⟨t, u, ⟨-, htm⟩, -, hlen, hpt⟩ := h
    rw [hpt i hi] at hri
    rw [hpt j hj] at hrj
    injection hri with hri
    injection hrj with hrj
    subst hri
    subst hrj
    refine htm i (by simpa using hi) j (by simpa using hj) ?_
    rw [getD_map_field _ _ _ j hj, getD_map_field _ _ _ i hi]
    exact hv
  · intro rows out1 out2 hdt hdu h1 h2
    obtain ⟨t1, u1, ht1, hu1, hlen1, hpt1⟩ := h1
    obtain ⟨t2, u2, ht2, hu2, hlen2, hpt2⟩ := h2
    have ht12 : t1 = t2 :=
      admissibleRowNumbers_unique (distinct_map_field hdt) ht1 ht2
    have hu12 : u1 = u2 :=
      admissibleRowNumbers_unique (distinct_map_field hdu) hu1 hu2
    subst ht12
    subst hu12
    apply List.ext_getElem (by omega)
    intro i h1i h2i
    have hi : i < rows.length := by omega
    rw [← List.getD_eq_getElem out1 default h1i,
        ← List.getD_eq_getElem out2 default h2i, hpt1 i hi, hpt2 i hi]
  · intro rows out out' hdt hdu hro hoo
    obtain ⟨t, u, ht, hu, hlen, hpt⟩ := hro
    have hmt : out.map (·.totalTransactions) = rows.map (·.totalTransactions) := by
      apply List.ext_getElem (by simp [hlen])
      intro i hi1 hi2
      have hio : i < out.length := by simpa using hi1
      have hir : i < rows.length := by simpa using hi2
      rw [← List.getD_eq_getElem _ 0 hi1, ← List.getD_eq_getElem _ 0 hi2,
          getD_map_field _ _ _ i hio, getD_map_field _ _ _ i hir, hpt i hir]
    have hmu : out.map (·.uniqueWallets) = rows.map (·.uniqueWallets) := by
      apply List.ext_getElem (by simp [hlen])
      intro i hi1 hi2
      have hio : i < out.length := by simpa using hi1
      have hir : i < rows.length := by simpa using hi2
      rw [← List.getD_eq_getElem _ 0 hi1, ← List.getD_eq_getElem _ 0 hi2,
          getD_map_field _ _ _ i hio, getD_map_field _ _ _ i hir, hpt i hir]
    obtain ⟨t', u', ht', hu', hlen', hpt'⟩ := hoo
    rw [hmt] at ht'
    rw [hmu] at hu'
    have ht'' : t' = t :=
      admissibleRowNumbers_unique (distinct_map_field hdt) ht' ht
    have hu'' : u' = u :=
      admissibleRowNumbers_unique (distinct_map_field hdu) hu' hu
    subst ht''
    subst hu''
    apply List.ext_getElem (by omega)
    intro i h1i h2i
    have hio : i < out.length := h2i
    have hir : i < rows.length := by omega
    rw [← List.getD_eq_getElem out' default h1i,
        ← List.getD_eq_getElem out default h2i, hpt' i (by omega), hpt i hir]

/-- Witness for C3 (corrected): on a concrete tie-free table the
admissible outcome is unique, so the function's result is THE outcome of
the ranking SQL there. -/
theorem c3_rankings_corrected_witness :
    recalculateRankings
        [⟨"0xa1", "0xc1", 7, 0, 4, 0, 0, none, none⟩,
         ⟨"0xa2", "0xc2", 5, 0, 2, 0, 0, none, none⟩] =
      [⟨"0xa1", "0xc1", 7, 0, 4, 0, 0, some 1, some 1⟩,
       ⟨"0xa2", "0xc2", 5, 0, 2, 0, 0, some 2, some 2⟩] :=
  c3_rankings_corrected.2.2.2.1
    [⟨"0xa1", "0xc1", 7, 0, 4, 0, 0, none, none⟩,
     ⟨"0xa2", "0xc2", 5, 0, 2, 0, 0, none, none⟩]
    (recalculateRankings
      [⟨"0xa1", "0xc1", 7, 0, 4, 0, 0, none, none⟩,
       ⟨"0xa2", "0xc2", 5, 0, 2, 0, 0, none, none⟩])
    [⟨"0xa1", "0xc1", 7, 0, 4, 0, 0, some 1, some 1⟩,
     ⟨"0xa2", "0xc2", 5, 0, 2, 0, 0, some 2, some 2⟩]
    (by decide) (by decide)
    (c3_rankings_corrected.1
      [⟨"0xa1", "0xc1", 7, 0, 4, 0, 0, none, none⟩,
       ⟨"0xa2", "0xc2", 5, 0, 2, 0, 0, none, none⟩])
    ⟨[1, 2], [1, 2], by decide, by decide, rfl, by decide⟩

/-- C4 counterexample: when a project's transaction fetch fails, its
stored `project_stats` row is NOT left at its previous values —
`getContractTransactions` swallows the failure into an empty list and
the pass overwrites the row, here turning a previous total of 5 into 0. -/
theorem c4_counterexample :
    ((updateAllStats (fun _ => .error ()) (fun _ => false) 1000000
        [⟨"0xa1", "0xc1"⟩]
        [⟨"0xa1", "0xc1", 5, 2, 3, 1, 0, some 1, some 1⟩]).map (·.totalTransactions)
      = [0]) ∧
    ([(⟨"0xa1", "0xc1", 5, 2, 3, 1, 0, some 1, some 1⟩ : StatsRow)].map
        (·.totalTransactions) = [5]) ∧
    (0 : Nat) ≠ 5 := by
  decide

/-- C4 amended: an error thrown inside one project's processing (in this
code only the database calls can throw — the per-project `try/catch`) is
caught and skipped: that project's row keeps its previous values while
the pass still refreshes every other project and finishes with the
ranking recomputation over all rows.  A failed transaction *fetch*, by
contrast, yields an empty list and the row is overwritten (see the
counterexample); no failure summary is produced.  Here project `0xa1`
throws mid-pass and keeps its row, while project `0xa2` is refreshed
from its fetched transactions, and both are reranked. -/
theorem c4_pass_failure_semantics :
    ∀ (txs : List Tx) (t0 l0 u0 v0 : Nat) (g0 : ℚ) (rt0 ru0 : Option Nat) (now : Int),
      updateAllStats
          (fun c => if c = "0xc2" then .ok txs else .error ())
          (fun w => decide (w = "0xa1")) now
          [⟨"0xa1", "0xc1"⟩, ⟨"0xa2", "0xc2"⟩]
          [⟨"0xa1", "0xc1", t0, l0, u0, v0, g0, rt0, ru0⟩] =
        recalculateRankings
          [⟨"0xa1", "0xc1", t0, l0, u0, v0, g0, rt0, ru0⟩,
           ⟨"0xa2", "0xc2", txs.length, (recentTransactions now txs).length,
             calculateUniqueWallets txs, calculateUniqueWallets (recentTransactions now txs),
             0, none, none⟩] := by
  intro txs t0 l0 u0 v0 g0 rt0 ru0 now
  rfl
/-- Helper: every deployer the scan loop returns is a lowercased
string. -/
theorem findDeployerScan_lower (a : String) :
    ∀ (txs : List Tx) (d : String),
      findDeployerScan a txs = some d → ∃ u, d = toLowerStr u := by
  intro txs
  induction txs with
  | nil => intro d h; exact absurd h (by simp [findDeployerScan])
  | cons tx rest ih =>
    intro d h
    unfold findDeployerScan at h
    by_cases hc : (isCreationTx a tx && txFromL tx != "") = true
    · rw [if_pos hc] at h
      injection h with h
      exact ⟨optStr tx.fromAddr, h ▸ rfl⟩
    · rw [if_neg hc] at h
      exact ih d h

/-- Helper: every deployer method 1 returns is a lowercased string. -/
theorem getContractDeployerTxScan_lower (c : String) (txs : List Tx) (d : String)
    (h : getContractDeployerTxScan c txs = some d) : ∃ u, d = toLowerStr u := by
  simp only [getContractDeployerTxScan] at h
  by_cases he : txs.isEmpty = true
  · rw [if_pos he] at h
    exact absurd h (by simp)
  · rw [if_neg he] at h
    cases hscan : findDeployerScan (toLowerStr c) txs with
    | some e =>
      rw [hscan] at h
      have h' : some e = some d := h
      injection h' with h'
      exact h' ▸ findDeployerScan_lower _ txs e hscan
    | none =>
      rw [hscan] at h
      cases txs with
      | nil => exact absurd h (by simp)
      | cons t rest =>
        have h' : (if (optStr t.fromAddr).isEmpty = true then none
            else some (toLowerStr (optStr t.fromAddr))) = some d := h
        by_cases hfe : (optStr t.fromAddr).isEmpty = true
        · rw [if_pos hfe] at h'
          exact absurd h' (by simp)
        · rw [if_neg hfe] at h'
          injection h' with h'
          exact ⟨optStr t.fromAddr, h'.symm⟩

/-- Helper: every deployer `getContractDeployer` returns is a lowercased
string. -/
theorem getContractDeployer_lower (c : String) (txl : Option (List Tx))
    (cr : Option String) (d : String)
    (h : getContractDeployer c txl cr = some d) : ∃ u, d = toLowerStr u := by
  cases txl with
  | none =>
    cases cr with
    | none => exact absurd h (by simp [getContractDeployer])
    | some u =>
      have h' : some (toLowerStr u) = some d := h
      injection h' with h'
      exact ⟨u, h'.symm⟩
  | some txs =>
    cases hscan : getContractDeployerTxScan c txs with
    | some e =>
      have h' : (match getContractDeployerTxScan c txs with
          | some d => some d
          | none => Option.map toLowerStr cr) = some d := h
      rw [hscan] at h'
      have h'' : some e = some d := h'
      injection h'' with h''
      exact h'' ▸ getContractDeployerTxScan_lower c txs e hscan
    | none =>
      have h' : (match getContractDeployerTxScan c txs with
          | some d => some d
          | none => Option.map toLowerStr cr) = some d := h
      rw [hscan] at h'
      have h'' : Option.map toLowerStr cr = some d := h'
      cases cr with
      | none => exact absurd h'' (by simp)
      | some u =>
        have h3 : some (toLowerStr u) = some d := h''
        injection h3 with h3
        exact ⟨u, h3.symm⟩

/-- Helper: `addWallet` only ever adds lowercased strings. -/
theorem addWallet_mem (ws : List String) (o : Option String) (w : String)
    (h : w ∈ addWallet ws o) : w ∈ ws ∨ ∃ s, w = toLowerStr s := by
  cases o with
  | none => exact Or.inl h
  | some s =>
    have h' : w ∈ (if s.isEmpty = true then ws
        else if ws.contains (toLowerStr s) = true then ws
        else ws ++ [toLowerStr s]) := h
    by_cases h1 : s.isEmpty = true
    · rw [if_pos h1] at h'
      exact Or.inl h'
    · rw [if_neg h1] at h'
      by_cases h2 : ws.contains (toLowerStr s) = true
      · rw [if_pos h2] at h'
        exact Or.inl h'
      · rw [if_neg h2] at h'
        rcases List.mem_append.mp h' with h' | h'
        · exact Or.inl h'
        · exact Or.inr ⟨s, List.mem_singleton.mp h'⟩

/-- Helper: the unique-wallet fold only accumulates lowercased strings
over whatever it starts from. -/
theorem walletSet_aux : ∀ (txs : List Tx) (ws : List String) (w : String),
    w ∈ txs.foldl (fun ws tx => addWallet (addWallet ws tx.fromAddr) tx.toAddr) ws →
    w ∈ ws ∨ ∃ s, w = toLowerStr s := by
  intro txs
  induction txs with
  | nil => intro ws w h; exact Or.inl h
  | cons tx rest ih =>
    intro ws w h
    rcases ih _ w h with h | h
    · rcases addWallet_mem _ _ _ h with h | h
      · exact addWallet_mem _ _ _ h
      · exact Or.inr h
    · exact Or.inr h

/-- Helper: a successful `register` either appends the new row or maps
the resubmission update over the table. -/
theorem register_ok_shape (deployer : Option String) (req : RegisterRequest)
    (table : List Developer) (b : Bool) (t' : List Developer)
    (h : register deployer req table = (.ok b, t')) :
    t' = table ++ [newDeveloper req] ∨ t' = table.map (resubmitUpdate req) := by
  cases deployer with
  | none =>
    simp only [register] at h
    split at h
    · simp at h
    split at h
    · simp at h
    split at h
    · simp at h
    · simp at h
  | some d =>
    simp only [register] at h
    split at h
    · simp at h
    split at h
    · simp at h
    split at h
    · simp at h
    split at h
    · simp at h
    split at h
    · split at h
      · simp at h
      split at h
      · simp at h
      · rw [Prod.mk.injEq] at h
        exact Or.inr h.2.symm
    · rw [Prod.mk.injEq] at h
      exact Or.inl h.2.symm

/-- Helper: every row a successful `register` leaves in the table is
either a pre-existing row or carries the lowercased wallet and main
contract of the request. -/
theorem register_rows_normalized (deployer : Option String) (req : RegisterRequest)
    (table : List Developer) (b : Bool) (t' : List Developer)
    (h : register deployer req table = (.ok b, t')) :
    ∀ row ∈ t', row ∈ table ∨
      (row.walletAddress = toLowerStr req.walletAddress ∧
       row.mainContract = toLowerStr req.mainContract) := by
  rcases register_ok_shape deployer req table b t' h with h2 | h2 <;> subst h2
  · intro row hrow
    rcases List.mem_append.mp hrow with hrow | hrow
    · exact Or.inl hrow
    · rw [List.mem_singleton.mp hrow]
      exact Or.inr ⟨rfl, rfl⟩
  · intro row hrow
    rcases List.mem_map.mp hrow with ⟨r, hr, rfl⟩
    by_cases hrk : r.walletAddress = toLowerStr req.walletAddress
    · refine Or.inr ⟨?_, ?_⟩
      · rw [resubmitUpdate_walletAddress]
        exact hrk
      · unfold resubmitUpdate
        rw [if_pos hrk]
    · unfold resubmitUpdate
      rw [if_neg hrk]
      exact Or.inl hr

/-- Helper: a valid, ownership-matching registration against a pending
row is rejected as already pending, leaving the table untouched. -/
theorem register_pending_reject (d : String) (req : RegisterRequest)
    (table : List Developer) (e : Developer)
    (hv : requestValid req) (hd : toLowerStr d = toLowerStr req.walletAddress)
    (hlk : lookupDeveloper table req.walletAddress = some e)
    (hap : e.isApproved = false) (hrj : e.isRejected = false) :
    register (some d) req table = (.alreadyPending, table) := by
  obtain ⟨h1, h2, h3, h4, h5⟩ := hv
  simp [register, h1, h2, h3, h4, h5, hd, hlk, hap, hrj]

/-- Helper: a second registration of the same wallet in a different
casing hits the very row the first one inserted: it is rejected as
already pending and the table is unchanged. -/
theorem double_registration_single_row :
    ∀ (req1 req2 : RegisterRequest) (d1 d2 : String) (table : List Developer),
      toLowerStr req1.walletAddress = toLowerStr req2.walletAddress →
      requestValid req1 → requestValid req2 →
      toLowerStr d1 = toLowerStr req1.walletAddress →
      toLowerStr d2 = toLowerStr req2.walletAddress →
      lookupDeveloper table req1.walletAddress = none →
      register (some d2) req2 (register (some d1) req1 table).2 =
        (.alreadyPending, (register (some d1) req1 table).2) := by
  intro req1 req2 d1 d2 table hkey hv1 hv2 hd1 hd2 hlk
  obtain ⟨a1, a2, a3, a4, a5⟩ := hv1
  have hreg1 : register (some d1) req1 table = (.ok false, table ++ [newDeveloper req1]) := by
    simp [register, a1, a2, a3, a4, a5, hd1, hlk]
  rw [hreg1]
  have hlk2 : lookupDeveloper (table ++ [newDeveloper req1]) req2.walletAddress =
      some (newDeveloper req1) := by
    unfold lookupDeveloper at hlk ⊢
    rw [List.find?_append, ← hkey, hlk]
    simp [newDeveloper]
  exact register_pending_reject d2 req2 (table ++ [newDeveloper req1]) (newDeveloper req1)
    hv2 hd2 hlk2 rfl rfl

/-- C10: address normalization — lookups, status checks and the
signature write on the `developers` table are case-insensitive in the
wallet; every deployer address the resolver returns is lowercased; the
unique-wallet set is built only from lowercased senders/receivers; every
row `register` writes carries the lowercased wallet and contract keys;
and two registrations of the same wallet in different casings hit the
same single row (the second is rejected as already pending, changing
nothing). -/
theorem c10_lowercase_normalization :
    (∀ (table : List Developer) (w1 w2 sig : String),
      toLowerStr w1 = toLowerStr w2 →
      checkStatus table w1 = checkStatus table w2 ∧
      lookupDeveloper table w1 = lookupDeveloper table w2 ∧
      saveSignature table w1 sig = saveSignature table w2 sig) ∧
    (∀ (c : String) (txl : Option (List Tx)) (cr : Option String) (d : String),
      getContractDeployer c txl cr = some d → ∃ u, d = toLowerStr u) ∧
    (∀ (txs : List Tx) (w : String), w ∈ walletSet txs → ∃ s, w = toLowerStr s) ∧
    (∀ (deployer : Option String) (req : RegisterRequest) (table : List Developer)
        (b : Bool) (t' : List Developer),
      register deployer req table = (.ok b, t') →
      ∀ row ∈ t', row ∈ table ∨
        (row.walletAddress = toLowerStr req.walletAddress ∧
         row.mainContract = toLowerStr req.mainContract)) ∧
    (∀ (req1 req2 : RegisterRequest) (d1 d2 : String) (table : List Developer),
      toLowerStr req1.walletAddress = toLowerStr req2.walletAddress →
      requestValid req1 → requestValid req2 →
      toLowerStr d1 = toLowerStr req1.walletAddress →
      toLowerStr d2 = toLowerStr req2.walletAddress →
      lookupDeveloper table req1.walletAddress = none →
      register (some d2) req2 (register (some d1) req1 table).2 =
        (.alreadyPending, (register (some d1) req1 table).2)) := by
  refine ⟨?_, getContractDeployer_lower, ?_, register_rows_normalized,
    double_registration_single_row⟩
  · intro table w1 w2 sig h
    have hl : lookupDeveloper table w1 = lookupDeveloper table w2 := by
      unfold lookupDeveloper
      rw [h]
    refine ⟨?_, hl, ?_⟩
    · unfold checkStatus
      rw [hl]
    · unfold saveSignature
      rw [h]
  · intro txs w h
    rcases walletSet_aux txs [] w h with h | h
    · exact absurd h (List.not_mem_nil w)
    · exact h

theorem c10_lowercase_normalization_witness :
    (checkStatus [] "0xAb" = checkStatus [] "0xaB") ∧
    (register (some "0xAAAAAAAAAAAAAAAAAAAAAAAAAAAAAAAAAAAAAAAA")
        ⟨"0xAAAAAAAAAAAAAAAAAAAAAAAAAAAAAAAAAAAAAAAA", "alice", none, none,
         "0xCCCCCCCCCCCCCCCCCCCCCCCCCCCCCCCCCCCCCCCC", none, none, none⟩
        (register (some "0xaaaaaaaaaaaaaaaaaaaaaaaaaaaaaaaaaaaaaaaa")
          ⟨"0xaaaaaaaaaaaaaaaaaaaaaaaaaaaaaaaaaaaaaaaa", "alice", none, none,
           "0xCCCCCCCCCCCCCCCCCCCCCCCCCCCCCCCCCCCCCCCC", none, none, none⟩ []).2 =
      (.alreadyPending,
        (register (some "0xaaaaaaaaaaaaaaaaaaaaaaaaaaaaaaaaaaaaaaaa")
          ⟨"0xaaaaaaaaaaaaaaaaaaaaaaaaaaaaaaaaaaaaaaaa", "alice", none, none,
           "0xCCCCCCCCCCCCCCCCCCCCCCCCCCCCCCCCCCCCCCCC", none, none, none⟩ []).2)) :=
  ⟨(c10_lowercase_normalization.1 [] "0xAb" "0xaB" "sig" (by decide)).1,
   c10_lowercase_normalization.2.2.2.2
     ⟨"0xaaaaaaaaaaaaaaaaaaaaaaaaaaaaaaaaaaaaaaaa", "alice", none, none,
      "0xCCCCCCCCCCCCCCCCCCCCCCCCCCCCCCCCCCCCCCCC", none, none, none⟩
     ⟨"0xAAAAAAAAAAAAAAAAAAAAAAAAAAAAAAAAAAAAAAAA", "alice", none, none,
      "0xCCCCCCCCCCCCCCCCCCCCCCCCCCCCCCCCCCCCCCCC", none, none, none⟩
     "0xaaaaaaaaaaaaaaaaaaaaaaaaaaaaaaaaaaaaaaaa"
     "0xAAAAAAAAAAAAAAAAAAAAAAAAAAAAAAAAAAAAAAAA" []
     (by decide) (by decide) (by decide) (by decide) (by decide) rfl⟩

end BuilderHub
